import Mathlib

/-!
Verification development for the accessibility-audit backend
(crawl → scan → enhance → persist pipeline plus the semantic search engine).

The JavaScript sources are shallowly embedded as Lean definitions:
JS numbers at the arithmetic boundaries are modelled as exact rationals
(every IEEE double is a rational), `Math.sqrt` is modelled as `Real.sqrt`,
fallible operations return `Option`/`Except`, external collaborators
(page fetcher, embedding provider, suggestion provider) are passed in as
function parameters, and the sqlite store is modelled as an explicit
record of tables with per-table id counters.  Callback receivers inside
the sqlite continuations are idealized to the enclosing instance, and
object-literal property lookup is modelled as finite-map lookup.
-/

namespace A11y

/-! ## Risk scoring (`calculateRiskScore`, src/unnamed/part_002 lines 350-368) -/

/-- JS `Math.round`: rounds half toward positive infinity, i.e. `⌊q + 1/2⌋`. -/
def jsRound (q : ℚ) : ℤ := ⌊q + 1/2⌋

/-- A violation as consumed by `calculateRiskScore`; only its `severity`
string is read. -/
structure RSViolation where
  severity : String
deriving DecidableEq

/-- `SEVERITY_WEIGHTS[violation.severity] || 1` restricted to the object's
own properties: the table maps critical→10, high→6, medium→3, low→1; any
other own-property lookup is undefined and the `|| 1` default applies
(`"low"` itself maps to the truthy `1`).  This finite-map reading is exact
for every severity string that is not the name of an `Object.prototype`
member — in particular on the spec's severity domain
{critical, high, medium, low, unknown}, the only values the enhancement
pipeline produces.  The full prototype-chain lookup semantics is modelled
separately by `severityLookup`/`rawScoreJS`/`calculateRiskScoreJS` below,
and `calculateRiskScoreJS_agrees` shows the two coincide away from the
`Object.prototype` member names. -/
def severityWeight (s : String) : ℕ :=
  if s = "critical" then 10
  else if s = "high" then 6
  else if s = "medium" then 3
  else if s = "low" then 1
  else 1

/-- `violations.reduce((total, v) => total + (SEVERITY_WEIGHTS[v.severity] || 1), 0)`. -/
def rawScore (vs : List RSViolation) : ℕ :=
  vs.foldl (fun total v => total + severityWeight v.severity) 0

/-- `calculateRiskScore` from src/unnamed/part_002: raw severity-weighted sum,
normalized by `violations.length * SEVERITY_WEIGHTS.critical`, rounded and
clamped to 100; `0` when the normalizer is `0` (empty list). -/
def calculateRiskScore (vs : List RSViolation) : ℤ :=
  let maxPossibleScore := vs.length * severityWeight "critical"
  if 0 < maxPossibleScore then
    min (jsRound ((rawScore vs : ℚ) / (maxPossibleScore : ℚ) * 100)) 100
  else 0

/-- Modelled from the spec (§4.3), for comparison with `calculateRiskScore`:
weights critical=10, high=6, medium=3, low=1, unknown=1. -/
def specSeverityWeight (s : String) : ℕ :=
  if s = "critical" then 10
  else if s = "high" then 6
  else if s = "medium" then 3
  else if s = "low" then 1
  else if s = "unknown" then 1
  else 1

/-- Modelled from the spec (§4.3), for comparison with `calculateRiskScore`:
`rawScore = Σ weight(v.severity)`, `normalizer = count × weight(critical)`,
`score = 0 if no violations, else min(round(rawScore/normalizer×100), 100)`. -/
def riskScoreSpec (vs : List RSViolation) : ℤ :=
  if vs.length = 0 then 0
  else
    min (jsRound (((vs.map fun v => (specSeverityWeight v.severity : ℚ)).sum
      / ((vs.length : ℚ) * 10)) * 100)) 100

/-! ### Full JS property-lookup semantics of the severity weights

`SEVERITY_WEIGHTS` is a plain object literal, so `SEVERITY_WEIGHTS[severity]`
traverses the prototype chain: for a severity string naming an
`Object.prototype` member the lookup returns the truthy inherited value
(a function, or `Object.prototype` itself for `"__proto__"`), and the
`|| 1` default never applies.  `total + <function or object>` coerces the
operand via `ToPrimitive` to its source/`"[object Object]"` text and
concatenates, so the accumulator becomes a string; string `+` keeps it a
string, and `ToNumber` of such a string (it contains function-source text,
never a numeric literal) is `NaN`, which `Math.round` and `Math.min`
propagate.  The accumulated string's exact text is implementation-defined
(native function source text), so it is abstracted to a non-numeric-string
marker. -/

/-- The property names of `Object.prototype` (ECMA-262), visible through the
prototype chain on every plain object literal. -/
def objectProtoMembers : List String :=
  ["constructor", "hasOwnProperty", "isPrototypeOf", "propertyIsEnumerable",
   "toLocaleString", "toString", "valueOf", "__proto__",
   "__defineGetter__", "__defineSetter__", "__lookupGetter__", "__lookupSetter__"]

/-- Outcome of the property read `SEVERITY_WEIGHTS[s]`. -/
inductive WeightLookup where
  | own (w : ℕ)
  | proto
  | absent
deriving DecidableEq

/-- `SEVERITY_WEIGHTS[s]` with the prototype chain: an own table entry, a
truthy non-numeric value inherited from `Object.prototype`, or `undefined`. -/
def severityLookup (s : String) : WeightLookup :=
  if s = "critical" then .own 10
  else if s = "high" then .own 6
  else if s = "medium" then .own 3
  else if s = "low" then .own 1
  else if s ∈ objectProtoMembers then .proto
  else .absent

/-- The right operand of `total + (SEVERITY_WEIGHTS[s] || 1)`. -/
inductive JSAddend where
  | num (w : ℕ)
  | nonNumeric
deriving DecidableEq

/-- `SEVERITY_WEIGHTS[s] || 1`: own weights are truthy numbers, inherited
values are truthy but non-numeric (the default does not fire), and only
`undefined` falls to `1`. -/
def severityAddend (s : String) : JSAddend :=
  match severityLookup s with
  | .own w => .num w
  | .proto => .nonNumeric
  | .absent => .num 1

/-- The reduce accumulator: a number, or — once a non-numeric operand has
been concatenated — a non-numeric string. -/
inductive JSAcc where
  | num (n : ℕ)
  | str
deriving DecidableEq

/-- JS `+` on the accumulator: number addition, or string concatenation as
soon as either side is non-numeric. -/
def jsAdd (acc : JSAcc) (a : JSAddend) : JSAcc :=
  match acc, a with
  | .num n, .num w => .num (n + w)
  | .num _, .nonNumeric => .str
  | .str, _ => .str

/-- The `violations.reduce(...)` of `calculateRiskScore` under the full
lookup semantics. -/
def rawScoreJS (vs : List RSViolation) : JSAcc :=
  vs.foldl (fun total v => jsAdd total (severityAddend v.severity)) (.num 0)

/-- A JS number result: a proper number or `NaN`. -/
inductive JSScore where
  | num (z : ℤ)
  | nan
deriving DecidableEq

/-- `calculateRiskScore` under the full lookup semantics: when the raw score
degenerated to a string, the division yields `NaN` and `Math.round`/`Math.min`
return `NaN`; otherwise the arithmetic of `calculateRiskScore`. -/
def calculateRiskScoreJS (vs : List RSViolation) : JSScore :=
  let maxPossibleScore := vs.length * severityWeight "critical"
  if 0 < maxPossibleScore then
    match rawScoreJS vs with
    | .num n => .num (min (jsRound ((n : ℚ) / (maxPossibleScore : ℚ) * 100)) 100)
    | .str => .nan
  else .num 0

/-! ## Crawler (`SiteCrawler.crawl`, src/services/crawler.js lines 18-63)

The external page fetch (puppeteer `page.goto` + title/link extraction) is a
parameter `fetch : String → Option FetchResult`; `none` models a navigation
failure (logged and skipped by the source).  URL parsing (`new URL(·).hostname`)
is a parameter `parseHost`; `none` models a parse failure (such links are
dropped silently).  The `href.startsWith('http')` filter applied during link
extraction and the hostname-equality filter of the enqueue loop are both kept.
The `while` loop is given explicit fuel; every claim is proved for all fuel
values.  The state additionally records the list of URLs passed to `fetch`
(in order), which the source only observes through its side effects. -/

/-- Needle-is-a-prefix test on character lists (JS `String.prototype.startsWith`
with the needle first). -/
def startsWithChars : List Char → List Char → Bool
  | [], _ => true
  | _ :: _, [] => false
  | a :: as, b :: bs => a = b && startsWithChars as bs

/-- Substring occurrence test on character lists. -/
def containsChars (needle : List Char) : List Char → Bool
  | [] => needle.isEmpty
  | c :: rest => startsWithChars needle (c :: rest) || containsChars needle rest

/-- JS `content.includes(section)`. -/
def containsSub (hay needle : String) : Bool :=
  containsChars needle.data hay.data

structure FetchResult where
  title : String
  links : List String
deriving DecidableEq

structure CrawlPage where
  url : String
  title : String
deriving DecidableEq

structure CrawlState where
  queue : List (String × ℕ)
  visited : List String
  pages : List CrawlPage
  fetched : List String
deriving DecidableEq

/-- One run of the `while (queue.length > 0)` loop body per unit of fuel:
dequeue; skip if too deep or already visited; otherwise mark visited, fetch,
record the page and enqueue same-host http(s) links at depth+1. -/
def crawlLoop (parseHost : String → Option String) (fetch : String → Option FetchResult)
    (domain : String) (maxDepth : ℕ) : ℕ → CrawlState → CrawlState
  | 0, st => st
  | fuel + 1, st =>
    match st.queue with
    | [] => st
    | (url, depth) :: rest =>
      if maxDepth < depth ∨ url ∈ st.visited then
        crawlLoop parseHost fetch domain maxDepth fuel { st with queue := rest }
      else
        match fetch url with
        | none =>
          crawlLoop parseHost fetch domain maxDepth fuel
            { queue := rest
              visited := url :: st.visited
              pages := st.pages
              fetched := st.fetched ++ [url] }
        | some r =>
          let internal := (r.links.filter fun l => startsWithChars "http".data l.data).filter
            fun l => parseHost l = some domain
          crawlLoop parseHost fetch domain maxDepth fuel
            { queue := rest ++ internal.map fun l => (l, depth + 1)
              visited := url :: st.visited
              pages := st.pages ++ [⟨url, r.title⟩]
              fetched := st.fetched ++ [url] }

/-- The queue seeded with `(baseUrl, depth 0)` and empty visited set. -/
def initialCrawlState (baseUrl : String) : CrawlState :=
  ⟨[(baseUrl, 0)], [], [], []⟩

/-- `crawl(baseUrl, maxDepth)`: parse the start hostname (a parse failure
throws out of `crawl`, modelled as `none`), then run the BFS loop. -/
def crawl (parseHost : String → Option String) (fetch : String → Option FetchResult)
    (baseUrl : String) (maxDepth fuel : ℕ) : Option CrawlState :=
  (parseHost baseUrl).map fun domain =>
    crawlLoop parseHost fetch domain maxDepth fuel (initialCrawlState baseUrl)

/-- Concrete hostname parser for witnesses: URLs of the toy site `s`. -/
def exHost : String → Option String := fun s =>
  if s = "http://s/a" ∨ s = "http://s/b" then some "s"
  else if s = "http://t/y" then some "t"
  else none

/-- Concrete two-page fetch environment for witnesses: page `a` links to `b`
(plus an external and a malformed link), `b` links back to `a`. -/
def exFetch : String → Option FetchResult := fun u =>
  if u = "http://s/a" then some ⟨"A", ["http://s/b", "ftp://s/x", "http://t/y"]⟩
  else if u = "http://s/b" then some ⟨"B", ["http://s/a"]⟩
  else none

/-! ## Embedding codec (src/unnamed/part_001 lines 196-200; decompression in
src/services/searchEngine.js lines 172-197)

JS float components are modelled as exact rationals.  `Int8Array` conversion
wraps modulo 2^8 into the signed range; for components in `[-1,1]` the rounded
value already lies in `[-127,127]`, so the wrap is the identity there. -/

/-- JS `ToInt8`: wrap an integer into the signed 8-bit range. -/
def toInt8 (z : ℤ) : ℤ := (z + 128) % 256 - 128

/-- `compressEmbedding`: quantize each component to `Math.round(val * 127)`
as a signed 8-bit integer; the serialized sequence is length-matched. -/
def compressEmbedding (v : List ℚ) : List ℤ :=
  v.map fun x => toInt8 (jsRound (x * 127))

/-- Decompression (`JSON.parse(embedding).map(val => val / 127)` inside
`cosineSimilarity`): divide each quantized component by 127. -/
def decompressEmbedding (w : List ℤ) : List ℚ :=
  w.map fun z : ℤ => (z : ℚ) / 127

/-- Dot product of the number arrays (`dot` accumulator of the loop). -/
def dotQ (a b : List ℚ) : ℚ := (List.zipWith (· * ·) a b).sum

/-- Sum of squared components (`magA`/`magB` accumulators of the loop,
squared magnitudes before the final `Math.sqrt`). -/
def sumSq (a : List ℚ) : ℚ := (a.map fun x => x * x).sum

/-- `cosineSimilarity` from src/services/searchEngine.js: 0 on length
mismatch, 0 when either magnitude is 0 (`magA && magB ? … : 0`), otherwise
`dot / (Math.sqrt(magA) * Math.sqrt(magB))`.  The string-input decompression
branch is resolved at the type level: callers pass numeric arrays. -/
noncomputable def cosineSimilarity (a b : List ℚ) : ℝ :=
  if a.length ≠ b.length then 0
  else if sumSq a ≠ 0 ∧ sumSq b ≠ 0 then
    (dotQ a b : ℝ) / (Real.sqrt (sumSq a) * Real.sqrt (sumSq b))
  else 0

/-! ## Semantic search (`SearchEngine.semanticSearch`, src/services/searchEngine.js
lines 117-170)

Of the two duplicate `semanticSearch` definitions in the class body, the later
(contextual-query-template) one is the definition JS keeps; it is the one
embedded here.  The query embedding is a parameter: `none` models a failed or
throwing `generateEmbedding` call (which the source turns into an empty array,
then rejects, lands in the `catch`, and returns `[]`); database rows are a
parameter; each row's `embedding` column is modelled post-`JSON.parse`, with
`none` for an unparseable value (the source maps those to `null` and filters
them out). -/

structure SERow where
  id : ℕ
  violationId : String
  description : String
  severity : String
  embedding : Option (List ℚ)
  url : String
  title : String
  domain : String
deriving DecidableEq

/-- A ranked result: the row spread together with its `similarity`. -/
structure SEResult where
  row : SERow
  similarity : ℝ

/-- The descending-similarity comparison used by
`.sort((a, b) => b.similarity - a.similarity)`. -/
def simGE (x y : SEResult) : Prop := y.similarity ≤ x.similarity

noncomputable instance : DecidableRel simGE :=
  fun x y => inferInstanceAs (Decidable (y.similarity ≤ x.similarity))

instance : IsTotal SEResult simGE :=
  ⟨fun a b => le_total b.similarity a.similarity⟩

instance : IsTrans SEResult simGE :=
  ⟨fun _ _ _ hab hbc => le_trans hbc hab⟩

/-- `semanticSearch(query, limit)` after the query has been embedded:
guard the query embedding, map each row to `null` (dropped) on a missing or
dimension-mismatched embedding and to `{…v, similarity}` otherwise, keep
similarity > 0.3, sort descending, truncate to `limit`.  Any internal failure
returns `[]`.  JS `0.3` is idealized to the rational `3/10`. -/
noncomputable def semanticSearch (queryEmbedding : Option (List ℚ))
    (rows : List SERow) (limit : ℕ) : List SEResult :=
  match queryEmbedding with
  | none => []
  | some q =>
    if q.length = 0 then []
    else
      ((rows.filterMap fun r =>
          match r.embedding with
          | none => none
          | some vec =>
            if vec.length = q.length then some ⟨r, cosineSimilarity q vec⟩
            else none).filter
        fun x => (3 / 10 : ℝ) < x.similarity).insertionSort simGE |>.take limit

/-! ## Fix suggestions (`generateFixSuggestions`, src/unnamed/part_002
lines 248-348)

The OpenAI chat call is a parameter `complete : String → Except String String`
(error value = the `error.code || 'Timeout'` string interpolated by the
source's catch block); the module-level `RESPONSE_CACHE` map is explicit
state threaded in and out; a thrown JS exception is `Except.error`. -/

structure FSNode where
  html : String
deriving DecidableEq

/-- A violation as consumed by `generateFixSuggestions`. -/
structure FSViolation where
  id : String
  description : String
  impact : String
  helpUrl : String
  nodes : List FSNode
deriving DecidableEq

/-- The value shapes returned by `generateFixSuggestions`: the success payload
`{id, suggestion, model, timestamp, cached}` or the degraded error payload
`{id, error, fallback, cached}`. -/
inductive FSResult where
  | success (id suggestion model timestamp : String) (cached : Bool)
  | failure (id errorText fallback : String) (cached : Bool)
deriving DecidableEq

/-- `{...cached, cached: true}` on a cache hit. -/
def withCachedTrue : FSResult → FSResult
  | .success a b c d _ => .success a b c d true
  | .failure a b c _ => .failure a b c true

/-- JS exceptions that can escape `generateFixSuggestions`: reading
`violation.nodes[0].html` of an empty `nodes` array. -/
inductive JsError where
  | typeError
deriving DecidableEq

/-- Whitespace test covering the characters `\s` matches in the source's
`replace(/\s+/g, ' ')` (idealized to ASCII whitespace). -/
def isWsChar (c : Char) : Bool :=
  c = ' ' ∨ c = '\t' ∨ c = '\n' ∨ c = '\r'

/-- Collapse every maximal whitespace run to a single space
(`prevWs` tracks whether the previous character was part of a run). -/
def collapseWsAux : List Char → Bool → List Char
  | [], _ => []
  | c :: rest, prevWs =>
    if isWsChar c then
      if prevWs then collapseWsAux rest true
      else ' ' :: collapseWsAux rest true
    else c :: collapseWsAux rest false

/-- `html.replace(/\s+/g, ' ').trim()` of the cache-key construction. -/
def normalizeWs (s : String) : String :=
  (String.mk (collapseWsAux s.data false)).trim

/-- The cache key: `JSON.stringify` of `{id, html, impact, helpUrl}` is
modelled as the tuple of those fields (stringification is injective on them). -/
def cacheKey (v : FSViolation) (n0 : FSNode) : String × String × String × String :=
  (v.id, normalizeWs n0.html, v.impact, v.helpUrl)

/-- The module-level `RESPONSE_CACHE` map as an association list
(later insertions shadow). -/
def FixCache := List ((String × String × String × String) × FSResult)

/-- `VIOLATION_TEMPLATES`. -/
def violationTemplates : List (String × String) :=
  [("color-contrast",
    "Fix color contrast ratio of at least 4.5:1 for normal text. Current element: {html}"),
   ("image-alt", "Add descriptive alt text to this image: {html}"),
   ("empty-heading", "Remove or add content to this empty heading: {html}")]

/-- Prompt construction: the per-rule template with `{html}` substituted,
or the generic senior-engineer prompt (whitespace of the JS template
literal reproduced). -/
def buildPrompt (v : FSViolation) (n0 : FSNode) : String :=
  match violationTemplates.lookup v.id with
  | some t => t.replace "{html}" n0.html
  | none =>
    "As a senior accessibility engineer, provide:\n        1. Explanation of this "
      ++ v.id ++ " violation (" ++ v.impact
      ++ " impact)\n        2. Fixed HTML code\n        3. Implementation steps\n        \n        Context: "
      ++ v.helpUrl ++ "\n        Element: " ++ n0.html.take 300

/-- The four required sections checked by `validateSuggestionFormat`. -/
def requiredSections : List String :=
  ["### Concise Technical Explanation", "### Fixed HTML Snippet",
   "### Implementation Steps", "### WCAG Reference"]

/-- `validateSuggestionFormat`: all required sections occur in the reply.
The source only logs a warning on mismatch; the result value is unaffected. -/
def validateSuggestionFormat (content : String) : Bool :=
  requiredSections.all fun s => containsSub content s

/-- The external-call environment of `generateFixSuggestions`. -/
structure FixEnv where
  complete : String → Except String String
  model : String
  timestamp : String

/-- `generateFixSuggestions(violation)`: the cache key is computed before the
`try` block, so an empty `nodes` array throws a `TypeError` past the boundary;
a cache hit returns the entry flagged `cached`; otherwise the external call is
made, a failure degrading to the `{id, error, fallback: helpUrl}` payload
inside the catch, and a success being trimmed, cached and returned. -/
def generateFixSuggestions (env : FixEnv) (cache : FixCache) (v : FSViolation) :
    Except JsError (FixCache × FSResult) :=
  match v.nodes with
  | [] => .error .typeError
  | n0 :: _ =>
    let key := cacheKey v n0
    match cache.lookup key with
    | some r => .ok (cache, withCachedTrue r)
    | none =>
      match env.complete (buildPrompt v n0) with
      | .error code =>
        .ok (cache, .failure v.id ("AI Service Unavailable: " ++ code) v.helpUrl false)
      | .ok content =>
        let result := FSResult.success v.id content.trim env.model env.timestamp false
        .ok ((key, result) :: cache, result)

/-! ## Scan enhancement (`enhanceResults`, src/scanner/axeScanner.js
lines 226-287)

Suggestion generation is a parameter `suggest` (its payload type `σ` is
opaque here); the batching into groups of five only bounds concurrency of the
external calls — batches are concatenated in order, so the processed list is
the in-order image of the input and is modelled as a map.  Fields of the scan
result other than `violations` are passed through by the source's spread and
are not modelled. -/

structure AxNode where
  html : String
  target : List String
deriving DecidableEq

/-- A raw axe violation as consumed by `enhanceResults`. -/
structure AxViolation where
  id : String
  impact : String
  description : String
  helpUrl : String
  tags : List String
  nodes : List AxNode
deriving DecidableEq

/-- `SEVERITY_MAPPING` with its key insertion order
(`Object.keys` enumerates own keys in that order). -/
def severityMapping : List (String × List String) :=
  [("critical", ["serious", "critical"]),
   ("high", ["moderate"]),
   ("medium", ["minor"]),
   ("low", ["cosmetic"])]

/-- `Object.keys(SEVERITY_MAPPING).find(level =>
SEVERITY_MAPPING[level].includes(violation.impact)) || 'unknown'`. -/
def mapImpactToSeverity (impact : String) : String :=
  ((severityMapping.find? fun p => p.2.contains impact).map Prod.fst).getD "unknown"

/-- An enhanced node: HTML truncated to 500 characters, selector segments
joined with `" > "`. -/
structure EnNode where
  html : String
  target : String
deriving DecidableEq

def enhanceNode (n : AxNode) : EnNode :=
  ⟨n.html.take 500, String.intercalate " > " n.target⟩

/-- An enhanced violation: the raw fields plus severity, processed nodes and
the suggestion payload. -/
structure EnViolation (σ : Type) where
  id : String
  impact : String
  description : String
  helpUrl : String
  tags : List String
  severity : String
  nodes : List EnNode
  suggestion : σ

def enhanceViolation {σ : Type} (suggest : AxViolation → String → List EnNode → σ)
    (v : AxViolation) : EnViolation σ :=
  let severity := mapImpactToSeverity v.impact
  let nodes := v.nodes.map enhanceNode
  ⟨v.id, v.impact, v.description, v.helpUrl, v.tags, severity, nodes,
    suggest v severity nodes⟩

/-- `acc[v.severity] = (acc[v.severity] || 0) + 1` over an association list. -/
def bumpCount : List (String × ℕ) → String → List (String × ℕ)
  | [], s => [(s, 1)]
  | (k, n) :: rest, s =>
    if k = s then (k, n + 1) :: rest else (k, n) :: bumpCount rest s

structure EnMetrics where
  riskScore : ℤ
  violationCount : ℕ
  severityBreakdown : List (String × ℕ)

structure EnResults (σ : Type) where
  violations : List (EnViolation σ)
  metrics : EnMetrics

/-- `enhanceResults`: per-violation severity mapping, node processing and
suggestion generation (in fixed batches of five, concatenated in order),
followed by the metrics computation over the enhanced set. -/
def enhanceResults {σ : Type} (suggest : AxViolation → String → List EnNode → σ)
    (violations : List AxViolation) : EnResults σ :=
  let processed := violations.map (enhanceViolation suggest)
  { violations := processed
    metrics :=
      { riskScore := calculateRiskScore (processed.map fun v => ⟨v.severity⟩)
        violationCount := processed.length
        severityBreakdown := (processed.map fun v => v.severity).foldl bumpCount [] } }

/-! ## Persistence store (`AIIndexer.storePageResults`, src/unnamed/part_001
lines 75-159, with `insertViolation`/`storeBasicViolation`/`compressEmbedding`
and the schema of src/unnamed/part_002 lines 4-49)

The sqlite store is a record of the three tables with per-table id counters
(`AUTOINCREMENT`).  `PRAGMA foreign_keys = ON` holds, so `INSERT OR REPLACE`
on a unique-key conflict deletes the conflicting row (allocating a fresh id
for the replacement) and cascades the delete through the foreign keys.
Failure injection is explicit: a `FailPlan` says which statement callbacks
report errors.  Rolling back returns the caller's database unchanged.
Timestamp columns (`last_scanned`) are not modelled.  Callback receivers of
the nested sqlite continuations are idealized to the enclosing instance, and
the concurrent `Promise.all` inserts of one batch are modelled as issued in
list order (each insert's own failure affects only its row: the batch-level
`catch` logs the error and continues with the next batch, after which the
source still runs `COMMIT`). -/

/-- An element of `scanData.violations` as consumed by `insertViolation`. -/
structure StoreViolation where
  id : String
  description : String
  severity : String
  tags : List String
  nodes : List FSNode
  suggestion : Option String
deriving DecidableEq

structure StoreMetrics where
  riskScore : ℚ
deriving DecidableEq

/-- The scan-data blob; the `scan_data` JSON column stores the value it
serializes. -/
structure StoreScanData where
  violations : List StoreViolation
  metrics : StoreMetrics
deriving DecidableEq

structure WebsiteRow where
  id : ℕ
  domain : String
  complianceScore : ℚ
deriving DecidableEq

structure PageRow where
  id : ℕ
  websiteId : ℕ
  url : String
  title : String
  riskScore : ℚ
  scanData : StoreScanData
deriving DecidableEq

structure ViolationRow where
  id : ℕ
  pageId : ℕ
  violationId : String
  description : String
  severity : String
  html : String
  suggestion : String
  embedding : Option (List ℤ)
deriving DecidableEq

structure DB where
  nextWebsiteId : ℕ
  nextPageId : ℕ
  nextViolationId : ℕ
  websites : List WebsiteRow
  pages : List PageRow
  violations : List ViolationRow
deriving DecidableEq

/-- The `REPLACE` half of `INSERT OR REPLACE INTO websites`: delete rows with
the conflicting domain and cascade through `pages.website_id` and
`violations.page_id`. -/
def deleteWebsitesByDomain (db : DB) (domain : String) : DB :=
  let wIds := (db.websites.filter fun w => w.domain = domain).map WebsiteRow.id
  let pIds := (db.pages.filter fun p => p.websiteId ∈ wIds).map PageRow.id
  { db with
    websites := db.websites.filter fun w => ¬ w.domain = domain
    pages := db.pages.filter fun p => ¬ p.websiteId ∈ wIds
    violations := db.violations.filter fun v => ¬ v.pageId ∈ pIds }

/-- `INSERT OR REPLACE INTO websites (domain, compliance_score)`. -/
def upsertWebsite (db : DB) (domain : String) (score : ℚ) : DB :=
  let db1 := deleteWebsitesByDomain db domain
  { db1 with
    websites := db1.websites ++ [⟨db.nextWebsiteId, domain, score⟩]
    nextWebsiteId := db.nextWebsiteId + 1 }

/-- The `REPLACE` half of `INSERT OR REPLACE INTO pages`: delete rows with the
conflicting url and cascade through `violations.page_id`. -/
def deletePagesByUrl (db : DB) (url : String) : DB :=
  let pIds := (db.pages.filter fun p => p.url = url).map PageRow.id
  { db with
    pages := db.pages.filter fun p => ¬ p.url = url
    violations := db.violations.filter fun v => ¬ v.pageId ∈ pIds }

/-- `INSERT OR REPLACE INTO pages (website_id, url, …)` with the
`(SELECT id FROM websites WHERE domain = ?)` subquery; the returned number is
the statement's `lastID`, the freshly allocated page id.  The caller upserts
the website first, so the subquery finds a row; an absent row would default
the foreign key, which cannot happen on the source's path. -/
def upsertPage (db : DB) (domain url title : String) (riskScore : ℚ)
    (scanData : StoreScanData) : DB × ℕ :=
  let websiteId := ((db.websites.find? fun w => w.domain = domain).map WebsiteRow.id).getD 0
  let db1 := deletePagesByUrl db url
  ({ db1 with
      pages := db1.pages ++ [⟨db.nextPageId, websiteId, url, title, riskScore, scanData⟩]
      nextPageId := db.nextPageId + 1 }, db.nextPageId)

/-- `DELETE FROM violations WHERE page_id = ?`. -/
def deleteViolationsByPage (db : DB) (pid : ℕ) : DB :=
  { db with violations := db.violations.filter fun v => ¬ v.pageId = pid }

/-- The embedding prompt of `insertViolation` (whitespace of the JS template
literal reproduced; an empty `nodes` array interpolates as `undefined` because
the optional chain short-circuits). -/
def buildEmbeddingText (v : StoreViolation) : String :=
  "Violation: " ++ v.id ++ " | " ++ v.description
    ++ " | \n                         Standard: " ++ String.intercalate ", " v.tags
    ++ " | \n                         Element: "
    ++ ((v.nodes.head?.map fun n => n.html.take 100).getD "undefined")

/-- Which statements fail during one `storePageResults` call.  `failInsert i`:
the `INSERT INTO violations` for the i-th violation rejects (both for the
embedded and the basic fallback insert); `failEmbed i`: embedding generation
for the i-th violation throws, so `insertViolation` falls back to
`storeBasicViolation` (no embedding column). -/
structure FailPlan where
  failWebsite : Bool
  failPage : Bool
  failDelete : Bool
  failCommit : Bool
  failInsert : ℕ → Bool
  failEmbed : ℕ → Bool

/-- One `insertViolation(pageId, violation)` call (violation index `i`):
skipped entirely when its insert rejects — the surrounding batch `catch`
swallows the rejection — otherwise appended with a fresh id, with the
embedding column absent when embedding generation failed. -/
def insertOneViolation (fp : FailPlan) (embed : String → List ℚ) (db : DB)
    (pid i : ℕ) (v : StoreViolation) : DB :=
  if fp.failInsert i then db
  else
    { db with
      violations := db.violations ++
        [⟨db.nextViolationId, pid, v.id, v.description, v.severity,
          (v.nodes.head?.map fun n => n.html).getD "",
          v.suggestion.getD "",
          if fp.failEmbed i then none
          else some (compressEmbedding (embed (buildEmbeddingText v)))⟩]
      nextViolationId := db.nextViolationId + 1 }

/-- The batched insert loop over `scanData.violations`, indices from `i`. -/
def storeViolationsFrom (fp : FailPlan) (embed : String → List ℚ) (db : DB)
    (pid : ℕ) (i : ℕ) : List StoreViolation → DB
  | [] => db
  | v :: rest =>
    storeViolationsFrom fp embed (insertOneViolation fp embed db pid i v) pid (i + 1) rest

/-- `storePageResults(domain, url, title, scanData)`: website upsert, page
upsert, violation delete, violation inserts, commit — inside one transaction.
A reported error in the website upsert, page upsert, delete or commit rolls
back (the caller's database is returned with `false`); a violation-insert
rejection is caught at the batch level and the transaction still commits.
The second component is `true` iff the promise resolves. -/
def storePageResults (fp : FailPlan) (embed : String → List ℚ) (db : DB)
    (domain url title : String) (scanData : StoreScanData) : DB × Bool :=
  if fp.failWebsite then (db, false)
  else
    let t1 := upsertWebsite db domain (100 - scanData.metrics.riskScore)
    if fp.failPage then (db, false)
    else
      let up := upsertPage t1 domain url title scanData.metrics.riskScore scanData
      if fp.failDelete then (db, false)
      else
        let t3 := deleteViolationsByPage up.1 up.2
        let t4 := storeViolationsFrom fp embed t3 up.2 0 scanData.violations
        if fp.failCommit then (db, false) else (t4, true)

/-! ## Concrete data for witnesses and counterexamples -/

/-- A store violation named `s` with a critical severity and one node. -/
def mkStoreViolation (s : String) : StoreViolation :=
  ⟨s, "desc " ++ s, "critical", ["wcag2aa"], [⟨"<x>"⟩], some ("fix " ++ s)⟩

/-- Scan data with five new violations for the persistence scenario. -/
def exScan : StoreScanData :=
  ⟨[mkStoreViolation "v1", mkStoreViolation "v2", mkStoreViolation "v3",
    mkStoreViolation "v4", mkStoreViolation "v5"], ⟨55⟩⟩

/-- A database state holding one website, one page and the page's previously
stored violation set `old-a`, `old-b`. -/
def exDb0 : DB :=
  { nextWebsiteId := 2
    nextPageId := 2
    nextViolationId := 3
    websites := [⟨1, "site.test", 45⟩]
    pages := [⟨1, 1, "https://site.test/p", "P", 55, ⟨[], ⟨55⟩⟩⟩]
    violations :=
      [⟨1, 1, "old-a", "da", "high", "<a>", "", none⟩,
       ⟨2, 1, "old-b", "db", "low", "<b>", "", none⟩] }

/-- Failure plan simulating a persistence failure on the 3rd violation insert
(index 2) and nothing else. -/
def exPlanInsert3 : FailPlan :=
  { failWebsite := false, failPage := false, failDelete := false,
    failCommit := false, failInsert := fun i => i = 2, failEmbed := fun _ => false }

/-- Failure plan whose violation delete reports an error. -/
def exPlanDelete : FailPlan :=
  { failWebsite := false, failPage := false, failDelete := true,
    failCommit := false, failInsert := fun _ => false, failEmbed := fun _ => false }

/-- Failure plan with no failures at all. -/
def exPlanNone : FailPlan :=
  { failWebsite := false, failPage := false, failDelete := false,
    failCommit := false, failInsert := fun _ => false, failEmbed := fun _ => false }

/-- A constant external embedding provider. -/
def exEmbed : String → List ℚ := fun _ => [1/2, -1/2]

/-- A suggestion environment whose external call always times out. -/
def exFixEnvDown : FixEnv :=
  ⟨fun _ => .error "Timeout", "gpt-4-turbo", "2026-01-01T00:00:00.000Z"⟩

/-- A violation with one affected node. -/
def exFixViolation : FSViolation :=
  ⟨"image-alt", "Images must have alternate text", "serious",
    "https://help.test/image-alt", [⟨"<img src=x>"⟩]⟩

/-- A violation whose `nodes` array is empty. -/
def exFixViolationNoNodes : FSViolation :=
  ⟨"image-alt", "Images must have alternate text", "serious",
    "https://help.test/image-alt", []⟩

/-! ## Theorems: risk scoring -/

theorem jsRound_le_jsRound {a b : ℚ} (h : a ≤ b) : jsRound a ≤ jsRound b :=
  Int.floor_le_floor (by linarith)

theorem severityWeight_le_ten (s : String) : severityWeight s ≤ 10 := by
  unfold severityWeight
  split_ifs <;> norm_num

theorem foldl_add_weight (l : List RSViolation) (a : ℕ) :
    l.foldl (fun total v => total + severityWeight v.severity) a
      = a + (l.map fun v => severityWeight v.severity).sum := by
  induction l generalizing a with
  | nil => simp
  | cons v tl ih => simp [ih, Nat.add_assoc]

theorem rawScore_eq_sum (vs : List RSViolation) :
    rawScore vs = (vs.map fun v => severityWeight v.severity).sum := by
  simpa using foldl_add_weight vs 0

theorem rawScore_append (vs : List RSViolation) (v : RSViolation) :
    rawScore (vs ++ [v]) = rawScore vs + severityWeight v.severity := by
  simp [rawScore_eq_sum]

theorem rawScore_le (vs : List RSViolation) : rawScore vs ≤ 10 * vs.length := by
  rw [rawScore_eq_sum]
  induction vs with
  | nil => simp
  | cons v tl ih =>
    simp only [List.map_cons, List.sum_cons, List.length_cons]
    have := severityWeight_le_ten v.severity
    omega

/-- Evaluation of the score on a one-violation list. -/
theorem calculateRiskScore_single (s : String) :
    calculateRiskScore [⟨s⟩] = min (jsRound ((severityWeight s : ℚ) / 10 * 100)) 100 := by
  unfold calculateRiskScore
  rw [if_pos (by norm_num [severityWeight])]
  simp [rawScore, severityWeight]

/-- C2 (counterexample): the risk score is not monotone under appending a
violation — appending a low-severity violation to an all-critical list drops
the score from 100 to 55. -/
theorem calculateRiskScore_not_monotone :
    calculateRiskScore ([⟨"critical"⟩] ++ [⟨"low"⟩]) < calculateRiskScore [⟨"critical"⟩] := by
  have h1 : calculateRiskScore [⟨"critical"⟩] = 100 := by
    rw [calculateRiskScore_single]
    norm_num [severityWeight, jsRound]
  have h2 : calculateRiskScore ([⟨"critical"⟩] ++ [⟨"low"⟩]) = 55 := by
    have hraw : rawScore [(⟨"critical"⟩ : RSViolation), ⟨"low"⟩] = 11 := by
      simp [rawScore_eq_sum, severityWeight]
    unfold calculateRiskScore
    rw [List.singleton_append, hraw]
    norm_num [severityWeight, jsRound]
  rw [h1, h2]
  norm_num

/-- C2 (amended): the risk score is monotone non-decreasing when the added
violation has critical severity (the maximal weight); adding a lower-weight
violation can lower the normalized score. -/
theorem calculateRiskScore_mono_critical (vs : List RSViolation) :
    calculateRiskScore vs ≤ calculateRiskScore (vs ++ [⟨"critical"⟩]) := by
  cases vs with
  | nil =>
    rw [List.nil_append, calculateRiskScore_single]
    have hz : calculateRiskScore [] = 0 := rfl
    rw [hz]
    norm_num [severityWeight, jsRound]
  | cons v tl =>
    have hlen2 : ((v :: tl) ++ [(⟨"critical"⟩ : RSViolation)]).length
        = (v :: tl).length + 1 := by simp
    have hraw2 : rawScore ((v :: tl) ++ [⟨"critical"⟩]) = rawScore (v :: tl) + 10 := by
      rw [rawScore_append]; rfl
    have hw : severityWeight "critical" = 10 := rfl
    have hlp : 0 < (v :: tl).length := by simp
    unfold calculateRiskScore
    rw [hlen2, hraw2, hw]
    rw [if_pos (Nat.mul_pos hlp (by norm_num)), if_pos (by omega)]
    apply min_le_min _ le_rfl
    apply jsRound_le_jsRound
    have hn : (1 : ℚ) ≤ ((v :: tl).length : ℚ) := by exact_mod_cast hlp
    have hraw : (rawScore (v :: tl) : ℚ) ≤ 10 * ((v :: tl).length : ℚ) := by
      exact_mod_cast rawScore_le (v :: tl)
    push_cast
    have h1 : (0 : ℚ) < ((v :: tl).length : ℚ) * 10 := by nlinarith
    have h2 : (0 : ℚ) < (((v :: tl).length : ℚ) + 1) * 10 := by nlinarith
    rw [div_mul_eq_mul_div, div_mul_eq_mul_div]
    rw [div_le_div_iff h1 h2]
    nlinarith [hraw, hn]

theorem severityWeight_eq_spec (s : String) : severityWeight s = specSeverityWeight s := by
  unfold severityWeight specSeverityWeight
  split_ifs <;> rfl

/-- C3: the implemented risk score coincides with the spec's reference
definition on every violation list, and takes the specified values on the
single-severity and all-critical inputs. -/
theorem calculateRiskScore_spec :
    (∀ vs, calculateRiskScore vs = riskScoreSpec vs) ∧
    calculateRiskScore [⟨"critical"⟩] = 100 ∧
    calculateRiskScore [⟨"high"⟩] = 60 ∧
    calculateRiskScore [⟨"medium"⟩] = 30 ∧
    calculateRiskScore [⟨"low"⟩] = 10 ∧
    (∀ n : ℕ, calculateRiskScore (List.replicate (n + 1) ⟨"critical"⟩) = 100) := by
  have hmain : ∀ vs, calculateRiskScore vs = riskScoreSpec vs := by
    intro vs
    unfold calculateRiskScore riskScoreSpec
    cases vs with
    | nil => rfl
    | cons v tl =>
      have hw : severityWeight "critical" = 10 := rfl
      rw [hw, if_pos (by simp), if_neg (by simp)]
      congr 2
      have hsum : ((v :: tl).map fun u => (specSeverityWeight u.severity : ℚ)).sum
          = ((rawScore (v :: tl) : ℕ) : ℚ) := by
        rw [rawScore_eq_sum]
        rw [show ((v :: tl).map fun u => severityWeight u.severity)
            = ((v :: tl).map fun u => specSeverityWeight u.severity) from by
          simp [severityWeight_eq_spec]]
        rw [Nat.cast_list_sum, List.map_map]
        rfl
      rw [hsum]
      push_cast
      ring
  refine ⟨hmain, ?_, ?_, ?_, ?_, ?_⟩
  · rw [calculateRiskScore_single, show severityWeight "critical" = 10 from rfl]
    norm_num [jsRound]
  · rw [calculateRiskScore_single, show severityWeight "high" = 6 from rfl]
    norm_num [jsRound]
  · rw [calculateRiskScore_single, show severityWeight "medium" = 3 from rfl]
    norm_num [jsRound]
  · rw [calculateRiskScore_single, show severityWeight "low" = 1 from rfl]
    norm_num [jsRound]
  intro n
  have hraw : rawScore (List.replicate (n + 1) (⟨"critical"⟩ : RSViolation)) = 10 * (n + 1) := by
    rw [rawScore_eq_sum, List.map_replicate]
    simp [severityWeight, Nat.mul_comm]
  unfold calculateRiskScore
  have hw : severityWeight "critical" = 10 := rfl
  rw [hraw, hw, List.length_replicate, if_pos (by omega)]
  have harg : ((10 * (n + 1) : ℕ) : ℚ) / (((n + 1) * 10 : ℕ) : ℚ) * 100 = 100 := by
    have hne : ((n : ℚ) + 1) ≠ 0 := by exact_mod_cast Nat.succ_ne_zero n
    push_cast
    field_simp
    ring
  rw [harg]
  have hj : jsRound 100 = 100 := by
    unfold jsRound
    rw [Int.floor_eq_iff] <;> norm_num
  rw [hj]
  simp

/-- One step of the reduce under the full lookup semantics. -/
theorem rawScoreJS_append (vs : List RSViolation) (v : RSViolation) :
    rawScoreJS (vs ++ [v]) = jsAdd (rawScoreJS vs) (severityAddend v.severity) := by
  unfold rawScoreJS
  rw [List.foldl_append]
  rfl

/-- Away from the `Object.prototype` member names, the full lookup agrees
with the finite-map weight. -/
theorem severityAddend_eq_weight (s : String) (hs : s ∉ objectProtoMembers) :
    severityAddend s = JSAddend.num (severityWeight s) := by
  unfold severityAddend severityLookup severityWeight
  -- split_ifs resolves the membership test with `hs`, leaving only the
  -- own-property and undefined branches, all definitional
  split_ifs with h1 h2 h3 h4
  all_goals rfl

/-- On lists whose severities avoid the `Object.prototype` member names, the
full-semantics reduce is the numeric raw score. -/
theorem rawScoreJS_eq_num (vs : List RSViolation)
    (h : ∀ v ∈ vs, v.severity ∉ objectProtoMembers) :
    rawScoreJS vs = JSAcc.num (rawScore vs) := by
  suffices haux : ∀ (a : ℕ) (l : List RSViolation),
      (∀ v ∈ l, v.severity ∉ objectProtoMembers) →
      l.foldl (fun total v => jsAdd total (severityAddend v.severity)) (JSAcc.num a)
        = JSAcc.num (l.foldl (fun total v => total + severityWeight v.severity) a) by
    exact haux 0 vs h
  intro a l
  induction l generalizing a with
  | nil => exact fun _ => rfl
  | cons v tl ih =>
    intro hl
    have hv : v.severity ∉ objectProtoMembers := hl v (List.mem_cons_self _ _)
    simp only [List.foldl_cons]
    rw [severityAddend_eq_weight v.severity hv]
    exact ih (a + severityWeight v.severity) (fun u hu => hl u (List.mem_cons_of_mem _ hu))

/-- On lists whose severities avoid the `Object.prototype` member names —
in particular on the spec's severity domain — the full-semantics score is
the numeric `calculateRiskScore`, so the finite-map model used above is the
restriction of the faithful one. -/
theorem calculateRiskScoreJS_agrees (vs : List RSViolation)
    (h : ∀ v ∈ vs, v.severity ∉ objectProtoMembers) :
    calculateRiskScoreJS vs = JSScore.num (calculateRiskScore vs) := by
  unfold calculateRiskScoreJS calculateRiskScore
  dsimp only
  by_cases hp : 0 < vs.length * severityWeight "critical"
  · rw [if_pos hp, if_pos hp, rawScoreJS_eq_num vs h]
  · rw [if_neg hp, if_neg hp]

/-- C10 (counterexample): the severity string `"toString"` is outside the
weight table, yet it does not contribute weight 1 — the lookup hits the
truthy inherited `Object.prototype.toString`, `|| 1` never applies, the
accumulator becomes a string, and `calculateRiskScore` returns `NaN` rather
than a number. -/
theorem rawScoreJS_proto_counterexample :
    ((("toString" : String) ≠ "critical") ∧ (("toString" : String) ≠ "high") ∧
      (("toString" : String) ≠ "medium") ∧ (("toString" : String) ≠ "low")) ∧
    severityAddend "toString" ≠ JSAddend.num 1 ∧
    rawScoreJS ([] ++ [⟨"toString"⟩]) ≠ JSAcc.num (0 + 1) ∧
    rawScoreJS [⟨"toString"⟩] = JSAcc.str ∧
    calculateRiskScoreJS [⟨"toString"⟩] = JSScore.nan := by
  decide

/-- C10 (amended): a severity string outside the weight table contributes
exactly weight 1 to the raw score provided it is not the name of an
`Object.prototype` member; for a severity naming such a member (e.g.
`"toString"`, `"constructor"`, `"__proto__"`) the truthy inherited value
suppresses the `|| 1` default, the accumulator degenerates to a string, and
`calculateRiskScore` returns `NaN` — the function is not numerically total
over arbitrary severity strings. -/
theorem rawScoreJS_contribution (vs : List RSViolation) (v : RSViolation)
    (h1 : v.severity ≠ "critical") (h2 : v.severity ≠ "high")
    (h3 : v.severity ≠ "medium") (h4 : v.severity ≠ "low") :
    (v.severity ∉ objectProtoMembers →
      severityAddend v.severity = JSAddend.num 1 ∧
      ∀ n, rawScoreJS vs = JSAcc.num n → rawScoreJS (vs ++ [v]) = JSAcc.num (n + 1)) ∧
    (v.severity ∈ objectProtoMembers →
      rawScoreJS (vs ++ [v]) = JSAcc.str ∧
      calculateRiskScoreJS (vs ++ [v]) = JSScore.nan) := by
  constructor
  · intro h5
    have ha : severityAddend v.severity = JSAddend.num 1 := by
      unfold severityAddend severityLookup
      rw [if_neg h1, if_neg h2, if_neg h3, if_neg h4, if_neg h5]
    refine ⟨ha, fun n hn => ?_⟩
    rw [rawScoreJS_append, hn, ha]
    rfl
  · intro h5
    have ha : severityAddend v.severity = JSAddend.nonNumeric := by
      unfold severityAddend severityLookup
      rw [if_neg h1, if_neg h2, if_neg h3, if_neg h4, if_pos h5]
    have hstr : rawScoreJS (vs ++ [v]) = JSAcc.str := by
      rw [rawScoreJS_append, ha]
      cases rawScoreJS vs with
      | num n => rfl
      | str => rfl
    refine ⟨hstr, ?_⟩
    unfold calculateRiskScoreJS
    dsimp only
    rw [if_pos (Nat.mul_pos (by simp) (by decide)), hstr]

/-- C10 (witness for the amended claim): after `[critical]`, the severity
`"wibble"` contributes exactly 1, while `"toString"` degenerates the raw
score to a string and the score to `NaN`. -/
theorem rawScoreJS_contribution_witness :
    severityAddend (RSViolation.mk "wibble").severity = JSAddend.num 1 ∧
    rawScoreJS ([⟨"critical"⟩] ++ [RSViolation.mk "wibble"]) = JSAcc.num (10 + 1) ∧
    rawScoreJS ([⟨"critical"⟩] ++ [RSViolation.mk "toString"]) = JSAcc.str ∧
    calculateRiskScoreJS ([⟨"critical"⟩] ++ [RSViolation.mk "toString"]) = JSScore.nan := by
  have hw := (rawScoreJS_contribution [⟨"critical"⟩] (RSViolation.mk "wibble")
    (by decide) (by decide) (by decide) (by decide)).1 (by decide)
  have ht := (rawScoreJS_contribution [⟨"critical"⟩] (RSViolation.mk "toString")
    (by decide) (by decide) (by decide) (by decide)).2 (by decide)
  exact ⟨hw.1, hw.2 10 (by decide), ht.1, ht.2⟩

/-! ## Theorems: crawler -/

theorem nodup_append_singleton {α : Type} {l : List α} {a : α}
    (h1 : l.Nodup) (h2 : a ∉ l) : (l ++ [a]).Nodup := by
  simp [List.nodup_append, h1, h2]

/-- The visited-before-fetch discipline as a loop invariant: the fetch log is
duplicate-free and contained in the visited set, and the recorded pages are
duplicate-free (per url) and contained in the fetch log. -/
theorem crawlLoop_inv (ph : String → Option String) (fetch : String → Option FetchResult)
    (domain : String) (maxDepth : ℕ) :
    ∀ (fuel : ℕ) (st : CrawlState), st.fetched.Nodup → st.fetched ⊆ st.visited →
      (st.pages.map CrawlPage.url).Nodup → (st.pages.map CrawlPage.url) ⊆ st.fetched →
      ((crawlLoop ph fetch domain maxDepth fuel st).fetched.Nodup ∧
        (crawlLoop ph fetch domain maxDepth fuel st).fetched ⊆
          (crawlLoop ph fetch domain maxDepth fuel st).visited ∧
        ((crawlLoop ph fetch domain maxDepth fuel st).pages.map CrawlPage.url).Nodup ∧
        ((crawlLoop ph fetch domain maxDepth fuel st).pages.map CrawlPage.url) ⊆
          (crawlLoop ph fetch domain maxDepth fuel st).fetched) := by
  intro fuel
  induction fuel with
  | zero => exact fun st h1 h2 h3 h4 => ⟨h1, h2, h3, h4⟩
  | succ fuel ih =>
    intro st h1 h2 h3 h4
    cases hq : st.queue with
    | nil => rw [crawlLoop, hq]; exact ⟨h1, h2, h3, h4⟩
    | cons hd rest =>
      obtain ⟨url, depth⟩ := hd
      rw [crawlLoop, hq]
      dsimp only
      by_cases hskip : maxDepth < depth ∨ url ∈ st.visited
      · rw [if_pos hskip]
        exact ih _ h1 h2 h3 h4
      · rw [if_neg hskip]
        have hnv : url ∉ st.visited := fun hmem => hskip (Or.inr hmem)
        have hnf : url ∉ st.fetched := fun hmem => hnv (h2 hmem)
        cases hf : fetch url with
        | none =>
          dsimp only
          apply ih
          · exact nodup_append_singleton h1 hnf
          · intro x hx
            rcases List.mem_append.mp hx with hx | hx
            · exact List.mem_cons_of_mem _ (h2 hx)
            · simp only [List.mem_singleton] at hx
              exact hx ▸ List.mem_cons_self _ _
          · exact h3
          · exact fun x hx => List.mem_append_left _ (h4 hx)
        | some r =>
          dsimp only
          apply ih
          · exact nodup_append_singleton h1 hnf
          · intro x hx
            rcases List.mem_append.mp hx with hx | hx
            · exact List.mem_cons_of_mem _ (h2 hx)
            · simp only [List.mem_singleton] at hx
              exact hx ▸ List.mem_cons_self _ _
          · simp only [List.map_append, List.map_cons, List.map_nil]
            apply nodup_append_singleton h3
            exact fun hmem => hnf (h4 hmem)
          · simp only [List.map_append, List.map_cons, List.map_nil]
            intro x hx
            rcases List.mem_append.mp hx with hx | hx
            · exact List.mem_append_left _ (h4 hx)
            · exact List.mem_append_right _ hx

/-- C6: within one crawl run no URL is fetched or recorded twice — the fetch
log and the recorded page urls are duplicate-free for every fetch environment,
every start URL, every depth bound and every fuel, and every fetched URL is in
the visited set (URLs are marked visited before being fetched). -/
theorem crawl_no_refetch (ph : String → Option String) (fetch : String → Option FetchResult)
    (domain baseUrl : String) (maxDepth fuel : ℕ) :
    (crawlLoop ph fetch domain maxDepth fuel (initialCrawlState baseUrl)).fetched.Nodup ∧
    ((crawlLoop ph fetch domain maxDepth fuel (initialCrawlState baseUrl)).pages.map
      CrawlPage.url).Nodup ∧
    (crawlLoop ph fetch domain maxDepth fuel (initialCrawlState baseUrl)).fetched ⊆
      (crawlLoop ph fetch domain maxDepth fuel (initialCrawlState baseUrl)).visited ∧
    ((crawlLoop ph fetch domain maxDepth fuel (initialCrawlState baseUrl)).pages.map
      CrawlPage.url) ⊆
      (crawlLoop ph fetch domain maxDepth fuel (initialCrawlState baseUrl)).fetched := by
  have h := crawlLoop_inv ph fetch domain maxDepth fuel (initialCrawlState baseUrl)
    (by simp [initialCrawlState]) (by simp [initialCrawlState])
    (by simp [initialCrawlState]) (by simp [initialCrawlState])
  exact ⟨h.1, h.2.2.1, h.2.1, h.2.2.2⟩

/-- When every queued entry is deeper than the bound, the loop only drains the
queue: pages, visited set and fetch log stay as they are. -/
theorem crawlLoop_all_deep (ph : String → Option String) (fetch : String → Option FetchResult)
    (domain : String) (maxDepth : ℕ) :
    ∀ (fuel : ℕ) (st : CrawlState), (∀ p ∈ st.queue, maxDepth < p.2) →
      ((crawlLoop ph fetch domain maxDepth fuel st).pages = st.pages ∧
        (crawlLoop ph fetch domain maxDepth fuel st).fetched = st.fetched) := by
  intro fuel
  induction fuel with
  | zero => exact fun st _ => ⟨rfl, rfl⟩
  | succ fuel ih =>
    intro st hdeep
    cases hq : st.queue with
    | nil => rw [crawlLoop, hq]; exact ⟨rfl, rfl⟩
    | cons hd rest =>
      obtain ⟨url, depth⟩ := hd
      rw [crawlLoop, hq]
      dsimp only
      have hdd : maxDepth < depth := hdeep (url, depth) (hq ▸ List.mem_cons_self _ _)
      rw [if_pos (Or.inl hdd)]
      exact ih _ fun p hp => hdeep p (hq ▸ List.mem_cons_of_mem _ hp)

/-- C5 (counterexample): with `maxDepth = 0`, processing the seed *does*
enqueue a same-host link discovered on the start page — the claim that nothing
beyond the initial seed is ever enqueued fails on the first loop iteration. -/
theorem crawl_maxDepth_zero_enqueues :
    (crawlLoop exHost exFetch "s" 0 1 (initialCrawlState "http://s/a")).queue
        = [("http://s/b", 1)] ∧
    ("http://s/b", (1 : ℕ)) ≠ ("http://s/a", (0 : ℕ)) := by
  exact ⟨by decide, by decide⟩

/-- C5 (amended): a crawl with `maxDepth = 0` visits (fetches and records)
exactly the start URL; links found on it are enqueued at depth 1 but every
such entry is skipped at dequeue, so nothing beyond the start URL is fetched
or recorded. -/
theorem crawl_maxDepth_zero (ph : String → Option String) (fetch : String → Option FetchResult)
    (baseUrl domain : String) (r : FetchResult) (fuel : ℕ)
    (h1 : ph baseUrl = some domain) (h2 : fetch baseUrl = some r) :
    ∃ st, crawl ph fetch baseUrl 0 (fuel + 1) = some st ∧
      st.pages = [⟨baseUrl, r.title⟩] ∧ st.fetched = [baseUrl] := by
  have hcrawl : crawl ph fetch baseUrl 0 (fuel + 1)
      = some (crawlLoop ph fetch domain 0 (fuel + 1) (initialCrawlState baseUrl)) := by
    unfold crawl
    rw [h1]
    rfl
  have hstep : crawlLoop ph fetch domain 0 (fuel + 1) (initialCrawlState baseUrl)
      = crawlLoop ph fetch domain 0 fuel
        { queue := ((r.links.filter fun l => startsWithChars "http".data l.data).filter
            fun l => ph l = some domain).map fun l => (l, 1)
          visited := [baseUrl]
          pages := [⟨baseUrl, r.title⟩]
          fetched := [baseUrl] } := by
    rw [crawlLoop]
    dsimp only [initialCrawlState]
    rw [if_neg (by simp), h2]
    rfl
  have hdrain := crawlLoop_all_deep ph fetch domain 0 fuel
    { queue := ((r.links.filter fun l => startsWithChars "http".data l.data).filter
        fun l => ph l = some domain).map fun l => (l, 1)
      visited := [baseUrl]
      pages := [⟨baseUrl, r.title⟩]
      fetched := [baseUrl] }
    (by
      intro p hp
      simp only [List.mem_map] at hp
      obtain ⟨l, _, hl⟩ := hp
      subst hl
      exact Nat.one_pos)
  exact ⟨_, hcrawl, hstep ▸ hdrain.1, hstep ▸ hdrain.2⟩

/-- C5 (witness for the amended claim): the toy site crawled at depth 0
records and fetches exactly its start page. -/
theorem crawl_maxDepth_zero_witness :
    exHost "http://s/a" = some "s" ∧ exFetch "http://s/a" = some ⟨"A", ["http://s/b", "ftp://s/x", "http://t/y"]⟩ ∧
    ∃ st, crawl exHost exFetch "http://s/a" 0 10 = some st ∧
      st.pages = [⟨"http://s/a", "A"⟩] ∧ st.fetched = ["http://s/a"] :=
  ⟨by decide, by decide, crawl_maxDepth_zero exHost exFetch "http://s/a" "s"
    ⟨"A", ["http://s/b", "ftp://s/x", "http://t/y"]⟩ 9 (by decide) (by decide)⟩

/-! ## Theorems: severity enhancement -/

/-- C7: `enhanceResults` assigns every violation's severity exactly by the
fixed impact table — serious,critical→critical, moderate→high, minor→medium,
cosmetic→low, anything else→unknown — for every suggestion generator and
input list. -/
theorem enhanceResults_severity_table :
    (∀ (σ : Type) (suggest : AxViolation → String → List EnNode → σ) (vs : List AxViolation),
      (enhanceResults suggest vs).violations.map (fun v => v.severity)
        = vs.map fun v => mapImpactToSeverity v.impact) ∧
    mapImpactToSeverity "serious" = "critical" ∧
    mapImpactToSeverity "critical" = "critical" ∧
    mapImpactToSeverity "moderate" = "high" ∧
    mapImpactToSeverity "minor" = "medium" ∧
    mapImpactToSeverity "cosmetic" = "low" ∧
    (∀ s, s ≠ "serious" → s ≠ "critical" → s ≠ "moderate" → s ≠ "minor" → s ≠ "cosmetic" →
      mapImpactToSeverity s = "unknown") := by
  refine ⟨?_, by decide, by decide, by decide, by decide, by decide, ?_⟩
  · intro σ suggest vs
    simp [enhanceResults, enhanceViolation]
  · intro s h1 h2 h3 h4 h5
    simp [mapImpactToSeverity, severityMapping, List.find?, h1, h2, h3, h4, h5]

/-- C7 (witness): an impact outside the table maps to `"unknown"`, and in
particular the table consequences are realized on a concrete scan. -/
theorem enhanceResults_severity_table_witness :
    mapImpactToSeverity "bogus" = "unknown" :=
  enhanceResults_severity_table.2.2.2.2.2.2 "bogus"
    (by decide) (by decide) (by decide) (by decide) (by decide)

/-! ## Theorems: fix suggestions -/

/-- C9 (counterexample): `generateFixSuggestions` throws a `TypeError` past
its boundary on a violation whose `nodes` array is empty, because the cache
key reads `violation.nodes[0].html` before the `try` block. -/
theorem generateFixSuggestions_throws_on_empty_nodes :
    generateFixSuggestions exFixEnvDown [] exFixViolationNoNodes
      = Except.error JsError.typeError := rfl

/-- C9 (amended): for every violation with at least one affected node,
`generateFixSuggestions` never throws — and when the entry is not cached and
the external suggestion call fails, it returns the structured error payload
referencing the violation's help URL, degrading only that entry. -/
theorem generateFixSuggestions_total (env : FixEnv) (cache : FixCache) (v : FSViolation)
    (hnodes : v.nodes ≠ []) :
    (∃ out, generateFixSuggestions env cache v = Except.ok out) ∧
    (∀ n0 rest code, v.nodes = n0 :: rest →
      List.lookup (cacheKey v n0) cache = none →
      env.complete (buildPrompt v n0) = Except.error code →
      generateFixSuggestions env cache v
        = Except.ok (cache, FSResult.failure v.id ("AI Service Unavailable: " ++ code)
            v.helpUrl false)) := by
  constructor
  · cases hv : v.nodes with
    | nil => exact absurd hv hnodes
    | cons n0 rest =>
      unfold generateFixSuggestions
      rw [hv]
      dsimp only
      cases List.lookup (cacheKey v n0) cache with
      | some r => exact ⟨_, rfl⟩
      | none =>
        cases env.complete (buildPrompt v n0) with
        | error code => exact ⟨_, rfl⟩
        | ok content => exact ⟨_, rfl⟩
  · intro n0 rest code hv hlookup hcomplete
    unfold generateFixSuggestions
    rw [hv]
    dsimp only
    rw [hlookup]
    dsimp only
    rw [hcomplete]

/-- C9 (witness for the amended claim): with the external service down, a
one-node violation degrades to the error payload carrying its help URL. -/
theorem generateFixSuggestions_total_witness :
    exFixViolation.nodes ≠ [] ∧
    generateFixSuggestions exFixEnvDown [] exFixViolation
      = Except.ok ([], FSResult.failure "image-alt"
          "AI Service Unavailable: Timeout" "https://help.test/image-alt" false) :=
  ⟨by decide,
    (generateFixSuggestions_total exFixEnvDown [] exFixViolation (by decide)).2
      ⟨"<img src=x>"⟩ [] "Timeout" rfl rfl rfl⟩

/-! ## Theorems: semantic search -/

theorem length_take_le {α : Type} (l : List α) (n : ℕ) : (l.take n).length ≤ n := by
  simp [List.length_take]

theorem mem_of_mem_sortTake {x : SEResult} {l : List SEResult} {n : ℕ}
    (hx : x ∈ (l.insertionSort simGE).take n) : x ∈ l :=
  (List.perm_insertionSort simGE l).subset (List.take_subset _ _ hx)

theorem sorted_sortTake (l : List SEResult) (n : ℕ) :
    List.Sorted simGE ((l.insertionSort simGE).take n) :=
  List.Pairwise.sublist (List.take_sublist n _) (List.sorted_insertionSort simGE l)

/-- C4: `semanticSearch` returns an empty list when the query embedding is
missing or empty (internal failure), and otherwise a list of length at most
`limit`, sorted by descending similarity, containing only candidates whose
similarity strictly exceeds 0.3 and whose stored embedding has the query's
dimensionality. -/
theorem semanticSearch_spec :
    (∀ (rows : List SERow) (limit : ℕ), semanticSearch none rows limit = []) ∧
    (∀ (rows : List SERow) (limit : ℕ), semanticSearch (some []) rows limit = []) ∧
    (∀ (q : List ℚ) (rows : List SERow) (limit : ℕ),
      (semanticSearch (some q) rows limit).length ≤ limit ∧
      List.Sorted simGE (semanticSearch (some q) rows limit) ∧
      (semanticSearch (some q) rows limit).Forall
        (fun x => (3 / 10 : ℝ) < x.similarity) ∧
      (semanticSearch (some q) rows limit).Forall
        (fun x => ∃ vec, x.row.embedding = some vec ∧ vec.length = q.length)) := by
  refine ⟨fun rows limit => rfl, fun rows limit => rfl, ?_⟩
  intro q rows limit
  by_cases hq : q.length = 0
  · unfold semanticSearch
    dsimp only
    rw [if_pos hq]
    exact ⟨by simp, List.sorted_nil, trivial, trivial⟩
  · unfold semanticSearch
    dsimp only
    rw [if_neg hq]
    refine ⟨length_take_le _ _, sorted_sortTake _ _, ?_, ?_⟩
    · rw [List.forall_iff_forall_mem]
      intro x hx
      have hx' := mem_of_mem_sortTake hx
      exact of_decide_eq_true (List.mem_filter.mp hx').2
    · rw [List.forall_iff_forall_mem]
      intro x hx
      have hx' := mem_of_mem_sortTake hx
      obtain ⟨r, hr, hfr⟩ := List.mem_filterMap.mp (List.mem_filter.mp hx').1
      cases he : r.embedding with
      | none => rw [he] at hfr; exact absurd hfr (by simp)
      | some vec =>
        rw [he] at hfr
        dsimp only at hfr
        by_cases hlen : vec.length = q.length
        · rw [if_pos hlen] at hfr
          injection hfr with hfr
          subst hfr
          exact ⟨vec, he, hlen⟩
        · rw [if_neg hlen] at hfr
          exact absurd hfr (by simp)

/-! ## Theorems: embedding codec -/

theorem sumSq_nonneg (a : List ℚ) : 0 ≤ sumSq a := by
  apply List.sum_nonneg
  intro x hx
  obtain ⟨y, _, hy⟩ := List.mem_map.mp hx
  rw [← hy]
  exact mul_self_nonneg y

theorem sumSq_pos_of_mem {a : List ℚ} {x : ℚ} (hx : x ∈ a) (hx0 : x ≠ 0) :
    0 < sumSq a := by
  have hle : x * x ≤ sumSq a := by
    apply List.single_le_sum
    · intro y hy
      obtain ⟨u, _, hu⟩ := List.mem_map.mp hy
      rw [← hu]
      exact mul_self_nonneg u
    · exact List.mem_map_of_mem _ hx
  exact lt_of_lt_of_le (mul_self_pos.mpr hx0) hle

theorem dotQ_self (a : List ℚ) : dotQ a a = sumSq a := by
  induction a with
  | nil => rfl
  | cons x xs ih =>
    simp only [dotQ, sumSq, List.zipWith_cons_cons, List.map_cons, List.sum_cons] at ih ⊢
    rw [ih]

/-- C8 (counterexample): the non-zero vector `[1/300]` with components in
`[-1, 1]` quantizes to the zero vector, whose self-similarity is 0 — not
within ±1/127 of 1. -/
theorem compress_roundtrip_counterexample :
    ((1 : ℚ) / 300 ≠ 0) ∧ |(1 : ℚ) / 300| ≤ 1 ∧
    compressEmbedding [(1 : ℚ) / 300] = [0] ∧
    ¬ (|cosineSimilarity (decompressEmbedding (compressEmbedding [(1 : ℚ) / 300]))
        (decompressEmbedding (compressEmbedding [(1 : ℚ) / 300])) - 1| ≤ 1 / 127) := by
  have hc : compressEmbedding [(1 : ℚ) / 300] = [0] := by
    norm_num [compressEmbedding, toInt8, jsRound]
  refine ⟨by norm_num, abs_le.mpr (by norm_num), hc, ?_⟩
  rw [hc]
  have hd : sumSq (decompressEmbedding [0]) = 0 := by
    simp [decompressEmbedding, sumSq]
  have hcos : cosineSimilarity (decompressEmbedding [0]) (decompressEmbedding [0]) = 0 := by
    unfold cosineSimilarity
    rw [if_neg (by simp), if_neg (fun h => h.1 hd)]
  rw [hcos]
  norm_num

/-- C8 (amended): compression is length-preserving, and whenever the
quantized vector is not the zero vector — which the counterexample shows can
fail even for non-zero inputs in `[-1, 1]` — the compress/decompress round
trip has self-cosine-similarity exactly 1, in particular within ±1/127. -/
theorem compress_roundtrip_similarity (v : List ℚ)
    (hrange : ∀ x ∈ v, |x| ≤ 1)
    (hnz : (compressEmbedding v).any (fun z => z != 0) = true) :
    (compressEmbedding v).length = v.length ∧
    |cosineSimilarity (decompressEmbedding (compressEmbedding v))
        (decompressEmbedding (compressEmbedding v)) - 1| ≤ 1 / 127 := by
  refine ⟨by simp [compressEmbedding], ?_⟩
  obtain ⟨z, hz_mem, hz⟩ := List.any_eq_true.mp hnz
  have hz' : z ≠ 0 := by simpa using hz
  have hmem : (z : ℚ) / 127 ∈ decompressEmbedding (compressEmbedding v) := by
    unfold decompressEmbedding
    exact List.mem_map_of_mem _ hz_mem
  have hzq : (z : ℚ) / 127 ≠ 0 := by
    rw [div_ne_zero_iff]
    exact ⟨by exact_mod_cast hz', by norm_num⟩
  have hpos : 0 < sumSq (decompressEmbedding (compressEmbedding v)) :=
    sumSq_pos_of_mem hmem hzq
  have hcos : cosineSimilarity (decompressEmbedding (compressEmbedding v))
      (decompressEmbedding (compressEmbedding v)) = 1 := by
    unfold cosineSimilarity
    rw [if_neg (by simp), if_pos ⟨ne_of_gt hpos, ne_of_gt hpos⟩, dotQ_self]
    rw [Real.mul_self_sqrt (by exact_mod_cast le_of_lt hpos)]
    rw [div_self (by exact_mod_cast ne_of_gt hpos)]
  rw [hcos]
  norm_num

/-- C8 (witness for the amended claim): the vector `[1]` survives the round
trip with self-similarity within ±1/127 of 1. -/
theorem compress_roundtrip_similarity_witness :
    (∀ x ∈ [(1 : ℚ)], |x| ≤ 1) ∧
    ((compressEmbedding [(1 : ℚ)]).any (fun z => z != 0) = true) ∧
    ((compressEmbedding [(1 : ℚ)]).length = [(1 : ℚ)].length ∧
      |cosineSimilarity (decompressEmbedding (compressEmbedding [(1 : ℚ)]))
          (decompressEmbedding (compressEmbedding [(1 : ℚ)])) - 1| ≤ 1 / 127) :=
  ⟨by norm_num, by norm_num [compressEmbedding, toInt8, jsRound],
    compress_roundtrip_similarity [(1 : ℚ)] (by norm_num)
      (by norm_num [compressEmbedding, toInt8, jsRound])⟩

/-! ## Theorems: persistence store -/

/-- After the per-page violation delete, no row of that page remains. -/
theorem filter_after_delete (db : DB) (pid : ℕ) :
    (deleteViolationsByPage db pid).violations.filter (fun r => r.pageId = pid) = [] := by
  dsimp only [deleteViolationsByPage]
  induction db.violations with
  | nil => rfl
  | cons r rest ih =>
    by_cases hr : r.pageId = pid
    · simpa [List.filter, hr] using ih
    · simpa [List.filter, hr] using ih

/-- The insert loop appends exactly the violations whose inserts do not fail,
in order, under the target page id. -/
theorem storeViolationsFrom_violationIds (fp : FailPlan) (embed : String → List ℚ) (pid : ℕ) :
    ∀ (vs : List StoreViolation) (db : DB) (i : ℕ),
      ((storeViolationsFrom fp embed db pid i vs).violations.filter
          (fun r => r.pageId = pid)).map ViolationRow.violationId
        = ((db.violations.filter (fun r => r.pageId = pid)).map ViolationRow.violationId)
          ++ ((vs.enumFrom i).filter (fun p => !(fp.failInsert p.1))).map
              (fun p => p.2.id) := by
  intro vs
  induction vs with
  | nil => intro db i; simp [storeViolationsFrom]
  | cons v rest ih =>
    intro db i
    rw [storeViolationsFrom, ih]
    by_cases hfi : fp.failInsert i
    · rw [show insertOneViolation fp embed db pid i v = db from by
        unfold insertOneViolation; rw [if_pos hfi]]
      simp [List.enumFrom, List.filter, hfi]
    · have hins : (insertOneViolation fp embed db pid i v).violations
          = db.violations ++
            [⟨db.nextViolationId, pid, v.id, v.description, v.severity,
              (v.nodes.head?.map fun n => n.html).getD "",
              v.suggestion.getD "",
              if fp.failEmbed i then none
              else some (compressEmbedding (embed (buildEmbeddingText v)))⟩] := by
        unfold insertOneViolation
        rw [if_neg hfi]
      rw [hins]
      rw [List.filter_append, List.map_append]
      have hone : (List.filter (fun r => decide (r.pageId = pid))
          [(⟨db.nextViolationId, pid, v.id, v.description, v.severity,
            (v.nodes.head?.map fun n => n.html).getD "",
            v.suggestion.getD "",
            if fp.failEmbed i then none
            else some (compressEmbedding (embed (buildEmbeddingText v)))⟩ : ViolationRow)])
          = [⟨db.nextViolationId, pid, v.id, v.description, v.severity,
              (v.nodes.head?.map fun n => n.html).getD "",
              v.suggestion.getD "",
              if fp.failEmbed i then none
              else some (compressEmbedding (embed (buildEmbeddingText v)))⟩] := by
        simp [List.filter]
      rw [hone]
      simp [List.enumFrom, List.filter, hfi, List.append_assoc]

/-- Unfolding of the all-statements-succeed path. -/
theorem storePageResults_ok (fp : FailPlan) (embed : String → List ℚ) (db : DB)
    (domain url title : String) (scanData : StoreScanData)
    (hfw : fp.failWebsite = false) (hfp : fp.failPage = false)
    (hfd : fp.failDelete = false) (hfc : fp.failCommit = false) :
    storePageResults fp embed db domain url title scanData
      = (storeViolationsFrom fp embed
          (deleteViolationsByPage
            (upsertPage (upsertWebsite db domain (100 - scanData.metrics.riskScore))
              domain url title scanData.metrics.riskScore scanData).1
            (upsertPage (upsertWebsite db domain (100 - scanData.metrics.riskScore))
              domain url title scanData.metrics.riskScore scanData).2)
          (upsertPage (upsertWebsite db domain (100 - scanData.metrics.riskScore))
            domain url title scanData.metrics.riskScore scanData).2
          0 scanData.violations, true) := by
  unfold storePageResults
  rw [hfw, hfp, hfd, hfc]
  rfl

/-- C1 (counterexample): with a simulated persistence failure on the 3rd
violation insert, `storePageResults` still commits: the stored page (fresh id
2 for url `https://site.test/p`) ends up with violation set
`v1, v2, v4, v5` — neither the previously stored set `old-a, old-b` of that
url's page (id 1) nor the full new set — and the call reports success. -/
theorem storePageResults_partial_commit :
    (storePageResults exPlanInsert3 exEmbed exDb0 "site.test" "https://site.test/p" "P"
        exScan).2 = true ∧
    (exDb0.violations.filter (fun r => r.pageId = 1)).map ViolationRow.violationId
        = ["old-a", "old-b"] ∧
    ((storePageResults exPlanInsert3 exEmbed exDb0 "site.test" "https://site.test/p" "P"
        exScan).1.pages.filter (fun p => p.url = "https://site.test/p")).map PageRow.id
        = [2] ∧
    ((storePageResults exPlanInsert3 exEmbed exDb0 "site.test" "https://site.test/p" "P"
        exScan).1.violations.filter (fun r => r.pageId = 2)).map ViolationRow.violationId
        = ["v1", "v2", "v4", "v5"] ∧
    (["v1", "v2", "v4", "v5"] ≠ (["old-a", "old-b"] : List String)) ∧
    (["v1", "v2", "v4", "v5"] ≠ (["v1", "v2", "v3", "v4", "v5"] : List String)) := by
  refine ⟨by decide, by decide, by decide, by decide, by decide, by decide⟩

/-- C1 (amended): a reported failure of the website upsert, page upsert,
violation delete or commit rolls the transaction back, leaving the database
exactly as it was; but a violation-insert failure is swallowed by the
batch-level catch and the transaction commits anyway, leaving the freshly
upserted page (id = the pre-call `nextPageId`) with exactly the new
violations whose inserts succeeded — a partially-replaced set. -/
theorem storePageResults_tx (fp : FailPlan) (embed : String → List ℚ) (db : DB)
    (domain url title : String) (scanData : StoreScanData) :
    ((fp.failWebsite = true ∨ fp.failPage = true ∨ fp.failDelete = true ∨
        fp.failCommit = true) →
      storePageResults fp embed db domain url title scanData = (db, false)) ∧
    (fp.failWebsite = false → fp.failPage = false → fp.failDelete = false →
      fp.failCommit = false →
      (storePageResults fp embed db domain url title scanData).2 = true ∧
      ((storePageResults fp embed db domain url title scanData).1.violations.filter
          (fun r => r.pageId = db.nextPageId)).map ViolationRow.violationId
        = ((scanData.violations.enumFrom 0).filter
            (fun p => !(fp.failInsert p.1))).map (fun p => p.2.id)) := by
  constructor
  · intro h
    unfold storePageResults
    cases hfw : fp.failWebsite with
    | true => simp
    | false =>
      cases hfp : fp.failPage with
      | true => simp
      | false =>
        cases hfd : fp.failDelete with
        | true => simp
        | false =>
          cases hfc : fp.failCommit with
          | true => simp
          | false => simp [hfw, hfp, hfd, hfc] at h
  · intro hfw hfp hfd hfc
    rw [storePageResults_ok fp embed db domain url title scanData hfw hfp hfd hfc]
    refine ⟨rfl, ?_⟩
    have hpid : (upsertPage (upsertWebsite db domain (100 - scanData.metrics.riskScore))
        domain url title scanData.metrics.riskScore scanData).2 = db.nextPageId := rfl
    rw [← hpid]
    rw [storeViolationsFrom_violationIds]
    rw [filter_after_delete]
    rfl

/-- C1 (witness for the amended claim): on the concrete store, a failing
violation delete leaves the database untouched, and a failure-free run
commits all five new violations for the fresh page. -/
theorem storePageResults_tx_witness :
    storePageResults exPlanDelete exEmbed exDb0 "site.test" "https://site.test/p" "P" exScan
        = (exDb0, false) ∧
    ((storePageResults exPlanNone exEmbed exDb0 "site.test" "https://site.test/p" "P"
        exScan).1.violations.filter
        (fun r => r.pageId = exDb0.nextPageId)).map ViolationRow.violationId
      = ((exScan.violations.enumFrom 0).filter
          (fun p => !(exPlanNone.failInsert p.1))).map (fun p => p.2.id) :=
  ⟨(storePageResults_tx exPlanDelete exEmbed exDb0 "site.test" "https://site.test/p" "P"
      exScan).1 (Or.inr (Or.inr (Or.inl rfl))),
    ((storePageResults_tx exPlanNone exEmbed exDb0 "site.test" "https://site.test/p" "P"
      exScan).2 rfl rfl rfl rfl).2⟩

end A11y
